import Mathlib

set_option maxHeartbeats 1000000

/-! Verification of the KTFF Elo rating application (src/streamlit_app.py).

The development shallow-embeds the two core components of the program:
the name normalizer `clean_team_name` and the rating engine
`calculate_elo_ratings`, together with the Elo helpers `expected_score`
and `update_elo`.  Python floats are modelled as exact real numbers
(`math.pow` becomes real exponentiation), Python strings as `String`,
Python dicts as insertion-ordered association lists, and a possibly
absent score as an `Option`. -/

/- ===================== Name normalizer ===================== -/

/-- ASCII whitespace, the character class removed by Python `str.strip()`
(`' '`, `'\t'`, `'\n'`, `'\r'`, vertical tab, form feed). -/
def isPySpace (c : Char) : Bool :=
  c = ' ' || c = '\t' || c = '\n' || c = '\r' || c.val = 11 || c.val = 12

/-- Python `str.strip()` on a list of characters: drop leading and trailing
whitespace. -/
def pyStrip (s : List Char) : List Char :=
  ((s.dropWhile isPySpace).reverse.dropWhile isPySpace).reverse

/-- One fuel-indexed step of Python `str.replace(pat, "")`: scan left to
right; whenever `pat` matches at the current position delete it and continue
scanning after the deleted occurrence (non-overlapping), otherwise keep the
character.  The fuel only bounds the recursion; `delAllOcc` below supplies
enough fuel that it never runs out. -/
def delOccFuel (pat : List Char) : Nat → List Char → List Char
  | 0, s => s
  | fuel + 1, s =>
    match s with
    | [] => []
    | c :: cs =>
      if !pat.isEmpty && pat.isPrefixOf (c :: cs) then
        delOccFuel pat fuel (List.drop pat.length (c :: cs))
      else
        c :: delOccFuel pat fuel cs

/-- Python `s.replace(pat, "")`: delete every (left-to-right,
non-overlapping) occurrence of `pat` in `s`. -/
def delAllOcc (pat s : List Char) : List Char := delOccFuel pat s.length s

/-- Whether `pat` occurs as a contiguous substring of `s`
(exact, case-sensitive match). -/
def containsSub (pat s : List Char) : Bool :=
  match s with
  | [] => pat.isEmpty
  | c :: rest => pat.isPrefixOf (c :: rest) || containsSub pat rest

/-- The sponsor prefix list of `clean_team_name` (line 19 of the source). -/
def prefixesList : List String :=
  ["GAÜ ", "DND L. ", "Miracle ", "China Bazaar ", "Tremeşeli H. "]

/-- The sponsor suffix list of `clean_team_name` (line 20 of the source). -/
def suffixesList : List String :=
  [" TSK", " GSK", " SK", " DSK", " YSK", " GBSK", " ŞHSK", " İYSK", " KKSK"]

/-- Embeds `clean_team_name` (lines 18-26): delete every occurrence of each
sponsor prefix in list order, then of each sponsor suffix in list order,
then strip surrounding whitespace. -/
def clean_team_name (team_name : String) : String :=
  let afterPre := prefixesList.foldl (fun acc p => delAllOcc p.data acc) team_name.data
  let afterSuf := suffixesList.foldl (fun acc p => delAllOcc p.data acc) afterPre
  String.mk (pyStrip afterSuf)

/- ===================== Rating engine: data model ===================== -/

/-- One match record: two raw team names and two optional scores
(an absent `Option` models an absent JSON key). -/
structure MatchRec where
  home_team : String
  away_team : String
  home_score : Option Nat
  away_score : Option Nat

/-- One season record: the season label and the insertion-ordered
week-to-matches mapping. -/
structure SeasonData where
  season : String
  weeks : List (String × List MatchRec)

/-- The engine state: the `elo_ratings` dict and the `elo_history` dict,
both modelled as insertion-ordered association lists keyed by the
normalized team name. -/
structure EloState where
  ratings : List (String × ℝ)
  history : List (String × List (String × ℝ))

/-- Dict lookup on an insertion-ordered association list. -/
def lookupKey (k : String) : List (String × α) → Option α
  | [] => none
  | (k', v) :: rest => if k' = k then some v else lookupKey k rest

/-- Python dict assignment `d[k] = v`: overwrite in place if the key is
present, append otherwise. -/
def setVal (m : List (String × α)) (k : String) (v : α) : List (String × α) :=
  match m with
  | [] => [(k, v)]
  | (k', v') :: rest => if k' = k then (k, v) :: rest else (k', v') :: setVal rest k v

/-- In-place mutation of the value stored at key `k` (models
`d[k].append(...)` on the list object stored in the dict). -/
def modifyVal (m : List (String × α)) (k : String) (f : α → α) : List (String × α) :=
  match m with
  | [] => []
  | (k', v') :: rest => if k' = k then (k', f v') :: rest else (k', v') :: modifyVal rest k f

/- ===================== Rating engine: Elo arithmetic ===================== -/

/-- Embeds `expected_score` (lines 8-9); `math.pow` is real exponentiation. -/
noncomputable def expected_score (rating_a rating_b : ℝ) : ℝ :=
  1 / (1 + (10 : ℝ) ^ ((rating_b - rating_a) / 400))

/-- Embeds `update_elo` (lines 11-15).  The source gives `k` the default
value 32; every call site in the engine passes that default explicitly here. -/
noncomputable def update_elo (rating_a rating_b actual_score_a k : ℝ) : ℝ × ℝ :=
  let expected_a := expected_score rating_a rating_b
  (rating_a + k * (actual_score_a - expected_a),
   rating_b + k * ((1 - actual_score_a) - (1 - expected_a)))

/-- Embeds line 54: `1 if home_score > away_score else 0.5 if home_score ==
away_score else 0`. -/
def actual_score (hs asc : Nat) : ℝ :=
  if hs > asc then 1 else if hs = asc then 0.5 else 0

/- ===================== Rating engine: the fold ===================== -/

/-- Embeds the lazy seeding of one team (lines 47-49 resp. 50-52): if the
normalized name is not yet a key of `elo_ratings`, set its rating to 1500
and its history to the single baseline entry `[(timestamp, 1500)]`. -/
def seedTeam (ts : String) (st : EloState) (t : String) : EloState :=
  if (lookupKey t st.ratings).isSome then st
  else { ratings := setVal st.ratings t 1500,
         history := setVal st.history t [(ts, 1500)] }

/-- Embeds lines 55-62: read both current ratings, run `update_elo`, store
the new home rating then the new away rating, and append the corresponding
history entries in the same order. -/
noncomputable def applyUpdate (ts : String) (st2 : EloState) (hT aT : String) (a : ℝ) :
    EloState :=
  let rh := (lookupKey hT st2.ratings).getD 1500
  let ra := (lookupKey aT st2.ratings).getD 1500
  let p := update_elo rh ra a 32
  { ratings := setVal (setVal st2.ratings hT p.1) aT p.2,
    history := modifyVal (modifyVal st2.history hT (fun h => h ++ [(ts, p.1)]))
                 aT (fun h => h ++ [(ts, p.2)]) }

/-- Embeds the per-match body of `calculate_elo_ratings` (lines 38-62):
skip the match when either score key is absent; otherwise normalize both
names, lazily seed both teams, and apply the Elo update. -/
noncomputable def processMatch (ts : String) (st : EloState) (m : MatchRec) : EloState :=
  match m.home_score, m.away_score with
  | some hs, some asc =>
    let hT := clean_team_name m.home_team
    let aT := clean_team_name m.away_team
    let st2 := seedTeam ts (seedTeam ts st hT) aT
    applyUpdate ts st2 hT aT (actual_score hs asc)
  | _, _ => st

/-- The timestamp label of line 37: `f"{season} - {week}"`. -/
def mkTimestamp (season week : String) : String := season ++ " - " ++ week

/-- Embeds `calculate_elo_ratings` (lines 29-64): the sequential fold over
seasons, weeks and matches, starting from empty rating and history dicts. -/
noncomputable def calculate_elo_ratings (data : List SeasonData) : EloState :=
  data.foldl
    (fun st sd =>
      sd.weeks.foldl
        (fun stw wm =>
          wm.2.foldl (fun stm mm => processMatch (mkTimestamp sd.season wm.1) stm mm) stw)
        st)
    { ratings := [], history := [] }

/- ========== Invariant predicates and auxiliary data ========== -/

/-- A history sequence that starts with the 1500 baseline entry and, at the
same timestamp, the update of the match that created it. -/
def baselineShape (h : List (String × ℝ)) : Prop :=
  ∃ ts r rest, h = (ts, (1500 : ℝ)) :: (ts, r) :: rest

/-- Invariant of C2: every history sequence in the state starts with the
1500 baseline followed by a same-timestamp update entry. -/
def startsWithBaseline (st : EloState) : Prop :=
  ∀ t h, lookupKey t st.history = some h → baselineShape h

/-- Invariant of C5: every team present in the rating map has a history
whose last entry carries exactly the current rating. -/
def ratingMatchesHistory (st : EloState) : Prop :=
  ∀ t r, lookupKey t st.ratings = some r →
    ∃ h ts, lookupKey t st.history = some h ∧ h.getLast? = some (ts, r)

/-- A one-match dataset ending in a 1-1 draw, used to instantiate the
invariant theorems on a concrete engine run. -/
def drawData : List SeasonData :=
  [{ season := "2024",
     weeks := [("1", [{ home_team := "Foo", away_team := "Bar",
                        home_score := some 1, away_score := some 1 }])] }]

/-- Modelled from the spec's words (step 3c): the home actual score is 1.0
for a home win, 0.5 for a draw, 0.0 for a home loss.  Kept separate from the
engine's `actual_score` for the refinement comparison of C1. -/
def actualScoreSpec (home_score away_score : Nat) : ℝ :=
  if home_score > away_score then 1
  else if home_score = away_score then 0.5 else 0

/-- Modelled from the spec's words (step 3d):
`E_home = 1 / (1 + 10^((R_away − R_home)/400))`.  Kept separate from the
engine's `expected_score` for the refinement comparison of C1. -/
noncomputable def expectedHomeSpec (r_home r_away : ℝ) : ℝ :=
  1 / (1 + (10 : ℝ) ^ ((r_away - r_home) / 400))


/-- Modelled from the spec's words (§4.1): remove every listed prefix
substring occurrence in list order, then every listed suffix substring
occurrence, then trim surrounding whitespace.  Used as the spec-side
counterpart of `clean_team_name` in C6. -/
def normalizeSpec (raw : String) : String :=
  String.mk (pyStrip (suffixesList.foldl (fun acc p => delAllOcc p.data acc)
    (prefixesList.foldl (fun acc p => delAllOcc p.data acc) raw.data)))

/- ========== Dynamic (malformed-score) model for C9 ========== -/

/-- A Python runtime value that can sit in a score field of the JSON
dataset: an integer or a string (a malformed, non-numeric score). -/
inductive PyVal where
  | int (n : Int)
  | str (s : String)

/-- Python string `<`: lexicographic comparison by code point. -/
def pyStrLt : List Char → List Char → Bool
  | [], [] => false
  | [], _ :: _ => true
  | _ :: _, [] => false
  | c :: cs, d :: ds =>
    if c.val < d.val then true
    else if c.val = d.val then pyStrLt cs ds else false

/-- Python `a > b` on score values: numeric on two ints, lexicographic on
two strings, and a raised `TypeError` on a mixed int/str comparison. -/
def pyGt : PyVal → PyVal → Except String Bool
  | .int m, .int n => .ok (decide (n < m))
  | .str a, .str b => .ok (pyStrLt b.data a.data)
  | _, _ => .error "TypeError: unsupported comparison between int and str"

/-- Python `a == b` on score values: equality within a type and `False`
across types (never an error). -/
def pyEqB : PyVal → PyVal → Bool
  | .int m, .int n => decide (m = n)
  | .str a, .str b => a == b
  | _, _ => false

/-- A match record whose present scores are arbitrary Python values,
modelling a dataset row with malformed scores. -/
structure MatchDyn where
  home_team : String
  away_team : String
  home_score : Option PyVal
  away_score : Option PyVal

/-- The per-match body of `calculate_elo_ratings` under Python's dynamic
typing of line 54: both teams are seeded (lines 47-52) before the score
comparison runs; `home_score > away_score` is evaluated first and `==`
second; a raised `TypeError` aborts the match and the error carries the
state at raise time (the seeding mutations are already in it). -/
noncomputable def processMatchDyn (ts : String) (st : EloState) (m : MatchDyn) :
    Except (String × EloState) EloState :=
  match m.home_score, m.away_score with
  | some hv, some av =>
    let hT := clean_team_name m.home_team
    let aT := clean_team_name m.away_team
    let st2 := seedTeam ts (seedTeam ts st hT) aT
    match pyGt hv av with
    | .error e => .error (e, st2)
    | .ok gt =>
      let a : ℝ := if gt then 1 else if pyEqB hv av then 0.5 else 0
      .ok (applyUpdate ts st2 hT aT a)
  | _, _ => .ok st

/- ===================== Association-list lemmas ===================== -/

theorem lookupKey_setVal_self (m : List (String × α)) (k : String) (v : α) :
    lookupKey k (setVal m k v) = some v := by
  induction m with
  | nil => simp [setVal, lookupKey]
  | cons kv rest ih =>
    obtain ⟨k', v'⟩ := kv
    by_cases h : k' = k
    · simp [setVal, lookupKey, h]
    · simp [setVal, lookupKey, h, ih]

theorem lookupKey_setVal_ne (m : List (String × α)) (k k' : String) (v : α)
    (h : k' ≠ k) : lookupKey k' (setVal m k v) = lookupKey k' m := by
  induction m with
  | nil => simp [setVal, lookupKey, Ne.symm h]
  | cons kv rest ih =>
    obtain ⟨k'', v''⟩ := kv
    by_cases h2 : k'' = k
    · subst h2
      simp [setVal, lookupKey, Ne.symm h]
    · simp [setVal, lookupKey, h2, ih]

theorem lookupKey_modifyVal_self (m : List (String × α)) (k : String) (f : α → α) :
    lookupKey k (modifyVal m k f) = (lookupKey k m).map f := by
  induction m with
  | nil => simp [modifyVal, lookupKey]
  | cons kv rest ih =>
    obtain ⟨k', v'⟩ := kv
    by_cases h : k' = k
    · simp [modifyVal, lookupKey, h]
    · simp [modifyVal, lookupKey, h, ih]

theorem lookupKey_modifyVal_ne (m : List (String × α)) (k k' : String) (f : α → α)
    (h : k' ≠ k) : lookupKey k' (modifyVal m k f) = lookupKey k' m := by
  induction m with
  | nil => simp [modifyVal, lookupKey]
  | cons kv rest ih =>
    obtain ⟨k'', v''⟩ := kv
    by_cases h2 : k'' = k
    · subst h2
      simp [modifyVal, lookupKey, Ne.symm h]
    · simp [modifyVal, lookupKey, h2, ih]

/- ===================== Seeding lemmas ===================== -/

theorem seedTeam_of_isSome (ts : String) (st : EloState) (t : String)
    (h : (lookupKey t st.ratings).isSome) : seedTeam ts st t = st := by
  simp [seedTeam, h]

theorem seedTeam_of_none (ts : String) (st : EloState) (t : String)
    (h : lookupKey t st.ratings = none) :
    seedTeam ts st t
      = { ratings := setVal st.ratings t 1500,
          history := setVal st.history t [(ts, 1500)] } := by
  simp [seedTeam, h]

theorem seedTeam_ratings_ne (ts : String) (st : EloState) (t u : String)
    (h : u ≠ t) : lookupKey u (seedTeam ts st t).ratings = lookupKey u st.ratings := by
  by_cases hs : (lookupKey t st.ratings).isSome
  · simp [seedTeam_of_isSome ts st t hs]
  · simp only [seedTeam, hs, if_false]
    exact lookupKey_setVal_ne _ _ _ _ h

theorem seedTeam_history_ne (ts : String) (st : EloState) (t u : String)
    (h : u ≠ t) : lookupKey u (seedTeam ts st t).history = lookupKey u st.history := by
  by_cases hs : (lookupKey t st.ratings).isSome
  · simp [seedTeam_of_isSome ts st t hs]
  · simp only [seedTeam, hs, if_false]
    exact lookupKey_setVal_ne _ _ _ _ h

theorem seedTeam_ratings_self (ts : String) (st : EloState) (t : String) :
    lookupKey t (seedTeam ts st t).ratings
      = some ((lookupKey t st.ratings).getD 1500) := by
  rcases h : lookupKey t st.ratings with _ | r
  · simp only [seedTeam, h, Option.isSome_none, if_false]
    simp [lookupKey_setVal_self]
  · simp [seedTeam, h]

theorem seedTeam_ratings_isSome (ts : String) (st : EloState) (t : String) :
    (lookupKey t (seedTeam ts st t).ratings).isSome := by
  simp [seedTeam_ratings_self]

/- ===================== Generic fold lemmas ===================== -/

theorem foldl_preserves_inv {α β : Type _} (P : β → Prop) (f : β → α → β)
    (hf : ∀ st x, P st → P (f st x)) :
    ∀ (l : List α) (init : β), P init → P (l.foldl f init) := by
  intro l
  induction l with
  | nil => intro init h; exact h
  | cons a rest ih => intro init h; exact ih _ (hf _ _ h)

theorem foldl_id {α β : Type _} (f : β → α → β) (l : List α) (init : β)
    (h : ∀ st x, x ∈ l → f st x = st) : l.foldl f init = init := by
  induction l generalizing init with
  | nil => rfl
  | cons a rest ih =>
    rw [List.foldl_cons, h init a (by simp)]
    exact ih init (fun st x hx => h st x (by simp [hx]))

theorem calc_preserves (P : EloState → Prop)
    (hstep : ∀ ts st m, P st → P (processMatch ts st m))
    (hinit : P { ratings := [], history := [] }) (data : List SeasonData) :
    P (calculate_elo_ratings data) := by
  unfold calculate_elo_ratings
  refine foldl_preserves_inv P _ ?_ data _ hinit
  intro st sd hP
  refine foldl_preserves_inv P _ ?_ sd.weeks st hP
  intro stw wm hPw
  refine foldl_preserves_inv P _ ?_ wm.2 stw hPw
  intro stm mm hPm
  exact hstep _ _ _ hPm

theorem seedTeam_history_self_of_none (ts : String) (st : EloState) (t : String)
    (h : lookupKey t st.ratings = none) :
    lookupKey t (seedTeam ts st t).history = some [(ts, (1500 : ℝ))] := by
  rw [seedTeam_of_none ts st t h]
  exact lookupKey_setVal_self _ _ _

theorem processMatch_skip (ts : String) (st : EloState) (m : MatchRec)
    (h : m.home_score = none ∨ m.away_score = none) :
    processMatch ts st m = st := by
  unfold processMatch
  rcases h with h | h
  · rw [h]
  · rw [h]
    rcases m.home_score with _ | x <;> rfl

theorem processMatch_completed (ts : String) (st : EloState) (m : MatchRec)
    (hs asc : Nat) (hh : m.home_score = some hs) (ha : m.away_score = some asc) :
    processMatch ts st m
      = applyUpdate ts
          (seedTeam ts (seedTeam ts st (clean_team_name m.home_team))
            (clean_team_name m.away_team))
          (clean_team_name m.home_team) (clean_team_name m.away_team)
          (actual_score hs asc) := by
  unfold processMatch
  rw [hh, ha]

/- ===================== Invariants ===================== -/

theorem baselineShape_append (h l : List (String × ℝ)) (hb : baselineShape h) :
    baselineShape (h ++ l) := by
  obtain ⟨ts, r, rest, rfl⟩ := hb
  exact ⟨ts, r, rest ++ l, by simp⟩

theorem baselineShape_two (ts : String) (r : ℝ) :
    baselineShape ([(ts, (1500 : ℝ))] ++ [(ts, r)]) :=
  ⟨ts, r, [], rfl⟩

theorem baselineShape_three (ts : String) (r r2 : ℝ) :
    baselineShape (([(ts, (1500 : ℝ))] ++ [(ts, r)]) ++ [(ts, r2)]) :=
  ⟨ts, r, [(ts, r2)], rfl⟩

theorem seedUpdate_preserves_baseline (ts : String) (st : EloState) (hT aT : String)
    (a : ℝ) (hst : startsWithBaseline st) :
    startsWithBaseline (applyUpdate ts (seedTeam ts (seedTeam ts st hT) aT) hT aT a) := by
  intro t h hlook
  simp only [applyUpdate] at hlook
  by_cases e1 : t = aT
  · subst e1
    rw [lookupKey_modifyVal_self, Option.map_eq_some'] at hlook
    obtain ⟨h1, hh1, rfl⟩ := hlook
    by_cases e2 : hT = t
    · subst e2
      rw [lookupKey_modifyVal_self, Option.map_eq_some'] at hh1
      obtain ⟨h0, hh0, rfl⟩ := hh1
      rcases hr : lookupKey hT st.ratings with _ | r
      · rw [seedTeam_of_isSome ts _ hT (seedTeam_ratings_isSome ts st hT),
          seedTeam_history_self_of_none ts st hT hr] at hh0
        obtain rfl := Option.some.inj hh0
        exact baselineShape_three ts _ _
      · have hcollapse : seedTeam ts st hT = st :=
          seedTeam_of_isSome ts st hT (by simp [hr])
        rw [hcollapse, hcollapse] at hh0
        exact baselineShape_append _ _ (baselineShape_append _ _ (hst _ _ hh0))
    · rw [lookupKey_modifyVal_ne _ _ _ _ (Ne.symm e2)] at hh1
      rcases hr : lookupKey t (seedTeam ts st hT).ratings with _ | r
      · rw [seedTeam_history_self_of_none ts _ t hr] at hh1
        obtain rfl := Option.some.inj hh1
        exact baselineShape_two ts _
      · rw [seedTeam_of_isSome ts _ t (by simp [hr]),
          seedTeam_history_ne ts st hT t (Ne.symm e2)] at hh1
        exact baselineShape_append _ _ (hst _ _ hh1)
  · rw [lookupKey_modifyVal_ne _ _ _ _ e1] at hlook
    by_cases e3 : t = hT
    · subst e3
      rw [lookupKey_modifyVal_self, Option.map_eq_some'] at hlook
      obtain ⟨h1, hh1, rfl⟩ := hlook
      rw [seedTeam_history_ne ts _ aT t e1] at hh1
      rcases hr : lookupKey t st.ratings with _ | r
      · rw [seedTeam_history_self_of_none ts st t hr] at hh1
        obtain rfl := Option.some.inj hh1
        exact baselineShape_two ts _
      · rw [seedTeam_of_isSome ts st t (by simp [hr])] at hh1
        exact baselineShape_append _ _ (hst _ _ hh1)
    · rw [lookupKey_modifyVal_ne _ _ _ _ e3,
        seedTeam_history_ne ts _ aT t e1,
        seedTeam_history_ne ts st hT t e3] at hlook
      exact hst _ _ hlook

theorem seedUpdate_preserves_rmh (ts : String) (st : EloState) (hT aT : String)
    (a : ℝ) (hst : ratingMatchesHistory st) :
    ratingMatchesHistory (applyUpdate ts (seedTeam ts (seedTeam ts st hT) aT) hT aT a) := by
  intro t r hlook
  simp only [applyUpdate] at hlook ⊢
  by_cases e1 : t = aT
  · subst e1
    rw [lookupKey_setVal_self] at hlook
    obtain rfl := Option.some.inj hlook
    rw [lookupKey_modifyVal_self]
    by_cases e2 : hT = t
    · subst e2
      rw [lookupKey_modifyVal_self]
      rcases hrt : lookupKey hT st.ratings with _ | r0
      · rw [seedTeam_of_isSome ts _ hT (seedTeam_ratings_isSome ts st hT),
          seedTeam_history_self_of_none ts st hT hrt]
        simp only [Option.map_some']
        exact ⟨_, ts, rfl, List.getLast?_concat _⟩
      · have hcoll : seedTeam ts st hT = st :=
          seedTeam_of_isSome ts st hT (by simp [hrt])
        rw [hcoll, hcoll]
        obtain ⟨h0, ts0, hh0, _⟩ := hst hT r0 hrt
        rw [hh0]
        simp only [Option.map_some']
        exact ⟨_, ts, rfl, List.getLast?_concat _⟩
    · rw [lookupKey_modifyVal_ne _ _ _ _ (Ne.symm e2)]
      rcases hrt : lookupKey t (seedTeam ts st hT).ratings with _ | r0
      · rw [seedTeam_history_self_of_none ts _ t hrt]
        simp only [Option.map_some']
        exact ⟨_, ts, rfl, List.getLast?_concat _⟩
      · rw [seedTeam_of_isSome ts _ t (by simp [hrt]),
          seedTeam_history_ne ts st hT t (Ne.symm e2)]
        have hrt' : lookupKey t st.ratings = some r0 := by
          rw [← seedTeam_ratings_ne ts st hT t (Ne.symm e2)]
          exact hrt
        obtain ⟨h0, ts0, hh0, _⟩ := hst t r0 hrt'
        rw [hh0]
        simp only [Option.map_some']
        exact ⟨_, ts, rfl, List.getLast?_concat _⟩
  · rw [lookupKey_setVal_ne _ _ _ _ e1] at hlook
    rw [lookupKey_modifyVal_ne _ _ _ _ e1]
    by_cases e3 : t = hT
    · subst e3
      rw [lookupKey_setVal_self] at hlook
      obtain rfl := Option.some.inj hlook
      rw [lookupKey_modifyVal_self]
      rw [seedTeam_history_ne ts _ aT t e1]
      rcases hrt : lookupKey t st.ratings with _ | r0
      · rw [seedTeam_history_self_of_none ts st t hrt]
        simp only [Option.map_some']
        exact ⟨_, ts, rfl, List.getLast?_concat _⟩
      · rw [seedTeam_of_isSome ts st t (by simp [hrt])]
        obtain ⟨h0, ts0, hh0, _⟩ := hst t r0 hrt
        rw [hh0]
        simp only [Option.map_some']
        exact ⟨_, ts, rfl, List.getLast?_concat _⟩
    · rw [lookupKey_setVal_ne _ _ _ _ e3,
        seedTeam_ratings_ne ts _ aT t e1,
        seedTeam_ratings_ne ts st hT t e3] at hlook
      rw [lookupKey_modifyVal_ne _ _ _ _ e3,
        seedTeam_history_ne ts _ aT t e1,
        seedTeam_history_ne ts st hT t e3]
      exact hst t r hlook

theorem expected_score_self (r : ℝ) : expected_score r r = 1 / 2 := by
  unfold expected_score
  rw [sub_self, zero_div, Real.rpow_zero]
  norm_num

theorem processMatch_preserves_baseline (ts : String) (st : EloState) (m : MatchRec)
    (hst : startsWithBaseline st) : startsWithBaseline (processMatch ts st m) := by
  rcases hhs : m.home_score with _ | hs
  · rw [processMatch_skip ts st m (Or.inl hhs)]
    exact hst
  rcases has : m.away_score with _ | asc
  · rw [processMatch_skip ts st m (Or.inr has)]
    exact hst
  rw [processMatch_completed ts st m hs asc hhs has]
  exact seedUpdate_preserves_baseline ts st _ _ _ hst

theorem calc_startsWithBaseline (data : List SeasonData) :
    startsWithBaseline (calculate_elo_ratings data) := by
  refine calc_preserves startsWithBaseline processMatch_preserves_baseline ?_ data
  intro t h hl
  simp [lookupKey] at hl

theorem processMatch_preserves_rmh (ts : String) (st : EloState) (m : MatchRec)
    (hst : ratingMatchesHistory st) : ratingMatchesHistory (processMatch ts st m) := by
  rcases hhs : m.home_score with _ | hs
  · rw [processMatch_skip ts st m (Or.inl hhs)]
    exact hst
  rcases has : m.away_score with _ | asc
  · rw [processMatch_skip ts st m (Or.inr has)]
    exact hst
  rw [processMatch_completed ts st m hs asc hhs has]
  exact seedUpdate_preserves_rmh ts st _ _ _ hst

theorem calc_rmh (data : List SeasonData) :
    ratingMatchesHistory (calculate_elo_ratings data) := by
  refine calc_preserves ratingMatchesHistory processMatch_preserves_rmh ?_ data
  intro t r hl
  simp [lookupKey] at hl

theorem draw_eval :
    calculate_elo_ratings drawData
      = { ratings := [("Foo", (1500 : ℝ)), ("Bar", (1500 : ℝ))],
          history := [("Foo", [("2024 - 1", (1500 : ℝ)), ("2024 - 1", (1500 : ℝ))]),
                      ("Bar", [("2024 - 1", (1500 : ℝ)), ("2024 - 1", (1500 : ℝ))])] } := by
  have hFoo : clean_team_name "Foo" = "Foo" := by decide
  have hBar : clean_team_name "Bar" = "Bar" := by decide
  have hne : ("Foo" : String) ≠ "Bar" := by decide
  have hts : mkTimestamp "2024" "1" = "2024 - 1" := by decide
  simp only [drawData, calculate_elo_ratings, List.foldl_cons, List.foldl_nil]
  rw [hts]
  simp only [processMatch, hFoo, hBar]
  simp only [seedTeam, applyUpdate, lookupKey, setVal, modifyVal, lookupKey_setVal_self,
    update_elo, actual_score, hne, Ne.symm hne, expected_score_self]
  norm_num [expected_score_self]

/-- C2: for every team, its rating state is created lazily at the first
completed match naming it: the rating is initialized to 1500 and the history
to the single entry `(timestamp, 1500)` before that match's update is
applied, so every history sequence the engine ever holds starts with the
1500 baseline entry followed by a same-timestamp update entry. -/
theorem claim_C2_baseline_initialization :
    (∀ ts st t, lookupKey t st.ratings = none →
        lookupKey t (seedTeam ts st t).ratings = some (1500 : ℝ) ∧
        lookupKey t (seedTeam ts st t).history = some [(ts, (1500 : ℝ))]) ∧
    (∀ ts st m, startsWithBaseline st → startsWithBaseline (processMatch ts st m)) ∧
    (∀ data t h, lookupKey t (calculate_elo_ratings data).history = some h →
        baselineShape h) := by
  refine ⟨?_, processMatch_preserves_baseline, ?_⟩
  · intro ts st t hnone
    refine ⟨?_, seedTeam_history_self_of_none ts st t hnone⟩
    rw [seedTeam_of_none ts st t hnone]
    exact lookupKey_setVal_self _ _ _
  · intro data t h hl
    exact calc_startsWithBaseline data t h hl

theorem claim_C2_baseline_initialization_witness :
    (lookupKey "Foo" (seedTeam "2024 - 1" { ratings := [], history := [] } "Foo").ratings
        = some (1500 : ℝ) ∧
     lookupKey "Foo" (seedTeam "2024 - 1" { ratings := [], history := [] } "Foo").history
        = some [("2024 - 1", (1500 : ℝ))]) ∧
    baselineShape [("2024 - 1", (1500 : ℝ)), ("2024 - 1", (1500 : ℝ))] :=
  ⟨claim_C2_baseline_initialization.1 "2024 - 1" _ "Foo" rfl,
   claim_C2_baseline_initialization.2.2 drawData "Foo" _
     (by rw [draw_eval]; simp [lookupKey])⟩

/-- C3: a match missing either score is skipped entirely, with no rating
update, no history entry and no seeding; a dataset of only incomplete
matches yields empty rating and history maps. -/
theorem claim_C3_incomplete_matches_skipped :
    (∀ ts st m, m.home_score = none ∨ m.away_score = none →
        processMatch ts st m = st) ∧
    (∀ data, (∀ sd ∈ data, ∀ wm ∈ sd.weeks, ∀ mm ∈ wm.2,
        mm.home_score = none ∨ mm.away_score = none) →
      calculate_elo_ratings data = { ratings := [], history := [] }) := by
  refine ⟨processMatch_skip, ?_⟩
  intro data hall
  unfold calculate_elo_ratings
  apply foldl_id
  intro st sd hsd
  apply foldl_id
  intro stw wm hwm
  apply foldl_id
  intro stm mm hmm
  exact processMatch_skip _ _ _ (hall sd hsd wm hwm mm hmm)

theorem claim_C3_incomplete_matches_skipped_witness :
    calculate_elo_ratings
        [{ season := "2024",
           weeks := [("1", [{ home_team := "A", away_team := "B",
                              home_score := none, away_score := some 1 },
                            { home_team := "C", away_team := "D",
                              home_score := some 2, away_score := none }])] }]
      = { ratings := [], history := [] } :=
  claim_C3_incomplete_matches_skipped.2 _ (by simp)

/-- C5: at every point during and after the fold, every team present in the
rating map has its current rating equal to the rating of the last entry of
its history sequence. -/
theorem claim_C5_rating_equals_last_history :
    (∀ ts st m, ratingMatchesHistory st → ratingMatchesHistory (processMatch ts st m)) ∧
    (∀ data, ratingMatchesHistory (calculate_elo_ratings data)) :=
  ⟨processMatch_preserves_rmh, calc_rmh⟩

theorem claim_C5_rating_equals_last_history_witness :
    ∃ h ts, lookupKey "Foo" (calculate_elo_ratings drawData).history = some h ∧
      h.getLast? = some (ts, (1500 : ℝ)) :=
  claim_C5_rating_equals_last_history.2 drawData "Foo" 1500
    (by rw [draw_eval]; simp [lookupKey])

/-- C4: the pairwise Elo update is zero-sum: the two ratings returned by
`update_elo` always sum to the two input ratings (for every K factor, hence
in particular for the fixed K = 32). -/
theorem claim_C4_zero_sum (ra rb a k : ℝ) :
    (update_elo ra rb a k).1 + (update_elo ra rb a k).2 = ra + rb := by
  simp only [update_elo]
  ring

/-- C1: for every completed match between two distinct normalized teams, the
engine computes the home actual score by the win/draw/loss rule, the home
expected score from the two current (post-seeding) ratings by
`E = 1/(1 + 10^((R_away − R_home)/400))`, and stores exactly
`R_home + 32*(actual − E)` and `R_away + 32*((1 − actual) − (1 − E))`. -/
theorem claim_C1_update_formulas (ts : String) (st : EloState) (m : MatchRec)
    (hs asc : Nat) (rh ra : ℝ)
    (hh : m.home_score = some hs) (ha : m.away_score = some asc)
    (hne : clean_team_name m.home_team ≠ clean_team_name m.away_team)
    (hrh : lookupKey (clean_team_name m.home_team)
        (seedTeam ts (seedTeam ts st (clean_team_name m.home_team))
          (clean_team_name m.away_team)).ratings = some rh)
    (hra : lookupKey (clean_team_name m.away_team)
        (seedTeam ts (seedTeam ts st (clean_team_name m.home_team))
          (clean_team_name m.away_team)).ratings = some ra) :
    lookupKey (clean_team_name m.home_team) (processMatch ts st m).ratings
        = some (rh + 32 * (actualScoreSpec hs asc - expectedHomeSpec rh ra)) ∧
    lookupKey (clean_team_name m.away_team) (processMatch ts st m).ratings
        = some (ra + 32 * ((1 - actualScoreSpec hs asc)
            - (1 - expectedHomeSpec rh ra))) := by
  rw [processMatch_completed ts st m hs asc hh ha]
  simp only [applyUpdate, hrh, hra, Option.getD_some]
  constructor
  · rw [lookupKey_setVal_ne _ _ _ _ hne, lookupKey_setVal_self]
    rfl
  · rw [lookupKey_setVal_self]
    rfl

/-- C7: for every completed match between two distinct normalized teams, the
engine appends exactly one new entry to each participant's (post-seeding)
history and sets the two participants' ratings, while every other team's
rating and history are left exactly as they were before the match. -/
theorem claim_C7_completed_match_frame (ts : String) (st : EloState) (m : MatchRec)
    (hs asc : Nat) (rh ra : ℝ) (histH histA : List (String × ℝ))
    (hh : m.home_score = some hs) (ha : m.away_score = some asc)
    (hne : clean_team_name m.home_team ≠ clean_team_name m.away_team)
    (hrh : lookupKey (clean_team_name m.home_team)
        (seedTeam ts (seedTeam ts st (clean_team_name m.home_team))
          (clean_team_name m.away_team)).ratings = some rh)
    (hra : lookupKey (clean_team_name m.away_team)
        (seedTeam ts (seedTeam ts st (clean_team_name m.home_team))
          (clean_team_name m.away_team)).ratings = some ra)
    (hH : lookupKey (clean_team_name m.home_team)
        (seedTeam ts (seedTeam ts st (clean_team_name m.home_team))
          (clean_team_name m.away_team)).history = some histH)
    (hA : lookupKey (clean_team_name m.away_team)
        (seedTeam ts (seedTeam ts st (clean_team_name m.home_team))
          (clean_team_name m.away_team)).history = some histA) :
    lookupKey (clean_team_name m.home_team) (processMatch ts st m).history
      = some (histH ++ [(ts, (update_elo rh ra (actual_score hs asc) 32).1)]) ∧
    lookupKey (clean_team_name m.away_team) (processMatch ts st m).history
      = some (histA ++ [(ts, (update_elo rh ra (actual_score hs asc) 32).2)]) ∧
    ∀ t, t ≠ clean_team_name m.home_team → t ≠ clean_team_name m.away_team →
      lookupKey t (processMatch ts st m).ratings = lookupKey t st.ratings ∧
      lookupKey t (processMatch ts st m).history = lookupKey t st.history := by
  rw [processMatch_completed ts st m hs asc hh ha]
  simp only [applyUpdate, hrh, hra, Option.getD_some]
  refine ⟨?_, ?_, ?_⟩
  · rw [lookupKey_modifyVal_ne _ _ _ _ hne, lookupKey_modifyVal_self, hH]
    rfl
  · rw [lookupKey_modifyVal_self, lookupKey_modifyVal_ne _ _ _ _ (Ne.symm hne), hA]
    rfl
  · intro t ht1 ht2
    constructor
    · rw [lookupKey_setVal_ne _ _ _ _ ht2, lookupKey_setVal_ne _ _ _ _ ht1,
        seedTeam_ratings_ne ts _ _ t ht2, seedTeam_ratings_ne ts st _ t ht1]
    · rw [lookupKey_modifyVal_ne _ _ _ _ ht2, lookupKey_modifyVal_ne _ _ _ _ ht1,
        seedTeam_history_ne ts _ _ t ht2, seedTeam_history_ne ts st _ t ht1]

/-- C10: a completed match whose two raw names normalize to the same team T
is processed against T's single rating state: both update values are
computed from the one pre-match rating `r0` (so the expected score is 0.5),
the two entries `r0 + 32*(a − 0.5)` and `r0 + 32*((1 − a) − 0.5)` are
appended to T's history in that order, and T's final rating is the second
(away-side) value, overwriting the home-side update. -/
theorem claim_C10_self_match (ts : String) (st : EloState) (m : MatchRec)
    (hs asc : Nat) (r0 : ℝ) (h0 : List (String × ℝ))
    (hh : m.home_score = some hs) (ha : m.away_score = some asc)
    (heq : clean_team_name m.home_team = clean_team_name m.away_team)
    (hr : lookupKey (clean_team_name m.home_team)
        (seedTeam ts st (clean_team_name m.home_team)).ratings = some r0)
    (hist : lookupKey (clean_team_name m.home_team)
        (seedTeam ts st (clean_team_name m.home_team)).history = some h0) :
    lookupKey (clean_team_name m.home_team) (processMatch ts st m).ratings
      = some (r0 + 32 * ((1 - actual_score hs asc) - 0.5)) ∧
    lookupKey (clean_team_name m.home_team) (processMatch ts st m).history
      = some (h0 ++ [(ts, r0 + 32 * (actual_score hs asc - 0.5)),
                     (ts, r0 + 32 * ((1 - actual_score hs asc) - 0.5))]) := by
  rw [processMatch_completed ts st m hs asc hh ha, ← heq]
  rw [seedTeam_of_isSome _ _ _ (seedTeam_ratings_isSome ts st (clean_team_name m.home_team))]
  simp only [applyUpdate, hr, Option.getD_some]
  have hp1 : (update_elo r0 r0 (actual_score hs asc) 32).1
      = r0 + 32 * (actual_score hs asc - 0.5) := by
    simp only [update_elo, expected_score_self]
    norm_num
  have hp2 : (update_elo r0 r0 (actual_score hs asc) 32).2
      = r0 + 32 * ((1 - actual_score hs asc) - 0.5) := by
    simp only [update_elo, expected_score_self]
    norm_num
  constructor
  · rw [lookupKey_setVal_self, hp2]
  · rw [lookupKey_modifyVal_self, lookupKey_modifyVal_self, hist]
    simp only [Option.map_some', List.append_assoc, List.singleton_append, hp1, hp2]

theorem claim_C1_update_formulas_witness :
    lookupKey (clean_team_name "GAÜ Foo TSK")
        (processMatch "2024 - 1" { ratings := [], history := [] }
          { home_team := "GAÜ Foo TSK", away_team := "Bar GSK",
            home_score := some 2, away_score := some 1 }).ratings
      = some ((1500 : ℝ) + 32 * (actualScoreSpec 2 1 - expectedHomeSpec 1500 1500)) ∧
    lookupKey (clean_team_name "Bar GSK")
        (processMatch "2024 - 1" { ratings := [], history := [] }
          { home_team := "GAÜ Foo TSK", away_team := "Bar GSK",
            home_score := some 2, away_score := some 1 }).ratings
      = some ((1500 : ℝ) + 32 * ((1 - actualScoreSpec 2 1)
          - (1 - expectedHomeSpec 1500 1500))) :=
  claim_C1_update_formulas "2024 - 1" { ratings := [], history := [] }
    { home_team := "GAÜ Foo TSK", away_team := "Bar GSK",
      home_score := some 2, away_score := some 1 }
    2 1 1500 1500 rfl rfl (by decide)
    (by simp [(by decide : clean_team_name "GAÜ Foo TSK" = "Foo"),
        (by decide : clean_team_name "Bar GSK" = "Bar"),
        (by decide : ("Foo" : String) ≠ "Bar"), seedTeam, lookupKey, setVal])
    (by simp [(by decide : clean_team_name "GAÜ Foo TSK" = "Foo"),
        (by decide : clean_team_name "Bar GSK" = "Bar"),
        (by decide : ("Foo" : String) ≠ "Bar"), seedTeam, lookupKey, setVal])

theorem claim_C7_completed_match_frame_witness :
    (lookupKey (clean_team_name "GAÜ Foo TSK")
        (processMatch "2024 - 1" { ratings := [], history := [] }
          { home_team := "GAÜ Foo TSK", away_team := "Bar GSK",
            home_score := some 2, away_score := some 1 }).history
      = some ([("2024 - 1", (1500 : ℝ))]
          ++ [("2024 - 1", (update_elo 1500 1500 (actual_score 2 1) 32).1)]) ∧
    lookupKey (clean_team_name "Bar GSK")
        (processMatch "2024 - 1" { ratings := [], history := [] }
          { home_team := "GAÜ Foo TSK", away_team := "Bar GSK",
            home_score := some 2, away_score := some 1 }).history
      = some ([("2024 - 1", (1500 : ℝ))]
          ++ [("2024 - 1", (update_elo 1500 1500 (actual_score 2 1) 32).2)])) ∧
    lookupKey "Lefkoşa"
        (processMatch "2024 - 1" { ratings := [], history := [] }
          { home_team := "GAÜ Foo TSK", away_team := "Bar GSK",
            home_score := some 2, away_score := some 1 }).ratings
      = lookupKey "Lefkoşa" (EloState.mk [] []).ratings ∧
    lookupKey "Lefkoşa"
        (processMatch "2024 - 1" { ratings := [], history := [] }
          { home_team := "GAÜ Foo TSK", away_team := "Bar GSK",
            home_score := some 2, away_score := some 1 }).history
      = lookupKey "Lefkoşa" (EloState.mk [] []).history := by
  have h := claim_C7_completed_match_frame "2024 - 1" { ratings := [], history := [] }
    { home_team := "GAÜ Foo TSK", away_team := "Bar GSK",
      home_score := some 2, away_score := some 1 }
    2 1 1500 1500 [("2024 - 1", (1500 : ℝ))] [("2024 - 1", (1500 : ℝ))]
    rfl rfl (by decide)
    (by simp [(by decide : clean_team_name "GAÜ Foo TSK" = "Foo"),
        (by decide : clean_team_name "Bar GSK" = "Bar"),
        (by decide : ("Foo" : String) ≠ "Bar"), seedTeam, lookupKey, setVal])
    (by simp [(by decide : clean_team_name "GAÜ Foo TSK" = "Foo"),
        (by decide : clean_team_name "Bar GSK" = "Bar"),
        (by decide : ("Foo" : String) ≠ "Bar"), seedTeam, lookupKey, setVal])
    (by simp [(by decide : clean_team_name "GAÜ Foo TSK" = "Foo"),
        (by decide : clean_team_name "Bar GSK" = "Bar"),
        (by decide : ("Foo" : String) ≠ "Bar"), seedTeam, lookupKey, setVal])
    (by simp [(by decide : clean_team_name "GAÜ Foo TSK" = "Foo"),
        (by decide : clean_team_name "Bar GSK" = "Bar"),
        (by decide : ("Foo" : String) ≠ "Bar"), seedTeam, lookupKey, setVal])
  exact ⟨⟨h.1, h.2.1⟩,
    h.2.2 "Lefkoşa"
      (by rw [(by decide : clean_team_name "GAÜ Foo TSK" = "Foo")]; decide)
      (by rw [(by decide : clean_team_name "Bar GSK" = "Bar")]; decide)⟩

theorem claim_C10_self_match_witness :
    lookupKey (clean_team_name "GAÜ Foo")
        (processMatch "2024 - 1" { ratings := [], history := [] }
          { home_team := "GAÜ Foo", away_team := "Foo TSK",
            home_score := some 2, away_score := some 1 }).ratings
      = some ((1500 : ℝ) + 32 * ((1 - actual_score 2 1) - 0.5)) ∧
    lookupKey (clean_team_name "GAÜ Foo")
        (processMatch "2024 - 1" { ratings := [], history := [] }
          { home_team := "GAÜ Foo", away_team := "Foo TSK",
            home_score := some 2, away_score := some 1 }).history
      = some ([("2024 - 1", (1500 : ℝ))]
          ++ [("2024 - 1", (1500 : ℝ) + 32 * (actual_score 2 1 - 0.5)),
              ("2024 - 1", (1500 : ℝ) + 32 * ((1 - actual_score 2 1) - 0.5))]) :=
  claim_C10_self_match "2024 - 1" { ratings := [], history := [] }
    { home_team := "GAÜ Foo", away_team := "Foo TSK",
      home_score := some 2, away_score := some 1 }
    2 1 1500 [("2024 - 1", (1500 : ℝ))] rfl rfl (by decide)
    (by simp [(by decide : clean_team_name "GAÜ Foo" = "Foo"),
        seedTeam, lookupKey, setVal])
    (by simp [(by decide : clean_team_name "GAÜ Foo" = "Foo"),
        seedTeam, lookupKey, setVal])

theorem string_data_mk (l : List Char) : (String.mk l).data = l := rfl

theorem clean_team_name_eq (x : String) :
    clean_team_name x
      = String.mk (pyStrip (suffixesList.foldl (fun acc p => delAllOcc p.data acc)
          (prefixesList.foldl (fun acc p => delAllOcc p.data acc) x.data))) := rfl

theorem clean_team_name_data (x : String) :
    (clean_team_name x).data
      = pyStrip (suffixesList.foldl (fun acc p => delAllOcc p.data acc)
          (prefixesList.foldl (fun acc p => delAllOcc p.data acc) x.data)) := by
  rw [clean_team_name_eq x, string_data_mk]

theorem delOccFuel_of_not_contains (pat s : List Char)
    (h : containsSub pat s = false) : ∀ fuel, delOccFuel pat fuel s = s := by
  induction s with
  | nil =>
    intro fuel
    cases fuel <;> rfl
  | cons c cs ih =>
    intro fuel
    cases fuel with
    | zero => rfl
    | succ n =>
      have h2 : pat.isPrefixOf (c :: cs) = false ∧ containsSub pat cs = false := by
        simpa [containsSub] using h
      simp [delOccFuel, h2.1, ih h2.2 n]

theorem foldl_delAllOcc_self (pats : List String) (s : List Char)
    (h : ∀ p ∈ pats, containsSub p.data s = false) :
    pats.foldl (fun acc p => delAllOcc p.data acc) s = s := by
  induction pats with
  | nil => rfl
  | cons p rest ih =>
    rw [List.foldl_cons,
      show delAllOcc p.data s = s from
        delOccFuel_of_not_contains p.data s (h p (by simp)) s.length]
    exact ih (fun q hq => h q (by simp [hq]))

theorem pyStrip_idem (s : List Char) : pyStrip (pyStrip s) = pyStrip s := by
  have hm : (s.dropWhile isPySpace).dropWhile isPySpace = s.dropWhile isPySpace :=
    List.dropWhile_idempotent _ _
  rw [List.dropWhile_eq_self_iff] at hm
  have hpre : pyStrip s <+: s.dropWhile isPySpace :=
    List.rdropWhile_prefix _ _
  have h1 : (pyStrip s).dropWhile isPySpace = pyStrip s := by
    rcases hps : pyStrip s with _ | ⟨c, t⟩
    · rfl
    · obtain ⟨k, hk⟩ := hpre
      rw [hps] at hk
      have hk' : s.dropWhile isPySpace = c :: (t ++ k) := by
        rw [← hk]
        rfl
      have hne : s.dropWhile isPySpace ≠ [] := by
        rw [hk']
        exact List.cons_ne_nil _ _
      have hc : isPySpace c = false := by
        simpa [hk'] using List.head_dropWhile_not isPySpace s hne
      simp only [List.dropWhile_cons]
      simp [hc]
  calc pyStrip (pyStrip s)
      = List.rdropWhile isPySpace ((pyStrip s).dropWhile isPySpace) := rfl
    _ = List.rdropWhile isPySpace (pyStrip s) := by rw [h1]
    _ = pyStrip s := List.rdropWhile_idempotent isPySpace (s.dropWhile isPySpace)

theorem clean_of_no_occurrence (name : String)
    (hp : ∀ p ∈ prefixesList, containsSub p.data name.data = false)
    (hsuf : ∀ p ∈ suffixesList, containsSub p.data name.data = false) :
    clean_team_name name = String.mk (pyStrip name.data) := by
  simp only [clean_team_name]
  rw [foldl_delAllOcc_self prefixesList name.data hp,
    foldl_delAllOcc_self suffixesList name.data hsuf]

/-- C6: `clean_team_name` is a total pure function that deletes every
(unanchored) occurrence of each listed sponsor prefix substring in list
order, then of each listed suffix substring, then trims whitespace (exactly
the spec-side pipeline `normalizeSpec`); and a name containing none of the
listed substrings — matched exactly, case-sensitively — is returned trimmed
and otherwise unchanged. -/
theorem claim_C6_normalizer :
    (∀ name, clean_team_name name = normalizeSpec name) ∧
    (∀ name, (∀ p ∈ prefixesList, containsSub p.data name.data = false) →
      (∀ p ∈ suffixesList, containsSub p.data name.data = false) →
      clean_team_name name = String.mk (pyStrip name.data)) :=
  ⟨fun _ => rfl, clean_of_no_occurrence⟩

theorem claim_C6_normalizer_witness :
    clean_team_name "Lapta United" = normalizeSpec "Lapta United" ∧
    clean_team_name "  Lapta United " = String.mk (pyStrip "  Lapta United ".data) :=
  ⟨claim_C6_normalizer.1 "Lapta United",
   claim_C6_normalizer.2 "  Lapta United " (by decide) (by decide)⟩

/-- C8 counterexample: normalization is not idempotent on every string.
Deleting the two "GAÜ " occurrences of "GAÜGAÜ  Foo" splices together a
fresh "GAÜ " occurrence: one pass yields "GAÜ Foo", a second pass "Foo". -/
theorem claim_C8_counterexample :
    clean_team_name (clean_team_name "GAÜGAÜ  Foo") ≠ clean_team_name "GAÜGAÜ  Foo" := by
  decide

/-- C8 (amended): normalization is idempotent on every input whose
normalized form contains no listed prefix or suffix substring (in
particular on every name a single pass fully cleans); it is not idempotent
in general, because deleting one occurrence can splice together a new one. -/
theorem claim_C8_idempotence_amended (x : String)
    (hp : ∀ p ∈ prefixesList, containsSub p.data (clean_team_name x).data = false)
    (hsuf : ∀ p ∈ suffixesList, containsSub p.data (clean_team_name x).data = false) :
    clean_team_name (clean_team_name x) = clean_team_name x := by
  have h := clean_of_no_occurrence (clean_team_name x) hp hsuf
  rw [clean_team_name_data x, pyStrip_idem] at h
  rw [h]
  exact (clean_team_name_eq x).symm

theorem claim_C8_idempotence_amended_witness :
    clean_team_name (clean_team_name "GAÜ Foo TSK") = clean_team_name "GAÜ Foo TSK" :=
  claim_C8_idempotence_amended "GAÜ Foo TSK" (by decide) (by decide)

/-- C9 fails on the code: the engine does not fail fast on malformed
scores.  With the two string scores "10" and "9" Python compares them
lexicographically, so the match is processed silently — no error is raised
and the home team, which scored more goals, is rated as the loser (1484
against 1516).  With the mixed pair `2` and `"1"` the `TypeError` is raised
only after both teams' rating states were seeded — a rating and history
mutation — not before. -/
theorem claim_C9_no_fail_fast_on_malformed_scores :
    processMatchDyn "2024 - 1" { ratings := [], history := [] }
        { home_team := "Foo", away_team := "Bar",
          home_score := some (.str "10"), away_score := some (.str "9") }
      = .ok { ratings := [("Foo", (1484 : ℝ)), ("Bar", (1516 : ℝ))],
              history := [("Foo", [("2024 - 1", (1500 : ℝ)), ("2024 - 1", (1484 : ℝ))]),
                          ("Bar", [("2024 - 1", (1500 : ℝ)), ("2024 - 1", (1516 : ℝ))])] } ∧
    processMatchDyn "2024 - 1" { ratings := [], history := [] }
        { home_team := "Foo", away_team := "Bar",
          home_score := some (.int 2), away_score := some (.str "1") }
      = .error ("TypeError: unsupported comparison between int and str",
          { ratings := [("Foo", (1500 : ℝ)), ("Bar", (1500 : ℝ))],
            history := [("Foo", [("2024 - 1", (1500 : ℝ))]),
                        ("Bar", [("2024 - 1", (1500 : ℝ))])] }) := by
  have hFoo : clean_team_name "Foo" = "Foo" := by decide
  have hBar : clean_team_name "Bar" = "Bar" := by decide
  have hne : ("Foo" : String) ≠ "Bar" := by decide
  have hgt : pyGt (PyVal.str "10") (PyVal.str "9") = .ok false := rfl
  have heqb : pyEqB (PyVal.str "10") (PyVal.str "9") = false := rfl
  have herr : pyGt (PyVal.int 2) (PyVal.str "1")
      = .error "TypeError: unsupported comparison between int and str" := rfl
  constructor
  · simp only [processMatchDyn, hFoo, hBar, hgt, heqb]
    simp only [seedTeam, applyUpdate, lookupKey, setVal, modifyVal,
      lookupKey_setVal_self, update_elo, hne, Ne.symm hne, expected_score_self]
    norm_num [expected_score_self]
  · simp only [processMatchDyn, hFoo, hBar, herr]
    simp only [seedTeam, lookupKey, setVal, hne, Ne.symm hne]
    norm_num

